import Mathlib

/-!
Shallow embedding of the SPDK DSA accel module (`src/module/accel/dsa/accel_dsa.c`)
and proofs about its submission / queueing / completion state machine.

Modelling conventions:
* Machine integers holding error codes are `Int`; the module uses `0` for
  success, `-EBUSY` (= -16) for transient scarcity, `-EINVAL` (= -22) for
  invalid argument, `-EIO_errno` (= -5) for a generic I/O failure.
* The idxd driver (`spdk_idxd_submit_*`) is external; a dispatch attempt is
  modelled by an oracle `DriverOracle` giving, per task, the return code the
  driver submission call produces.  Every externally visible action the module
  performs (driver submission call, caller completion, software DIF verify)
  is recorded in an `Effect` trace, in program order.
* `STAILQ` FIFOs become Lean lists (head = queue head); `STAILQ_INSERT_TAIL`
  is `++ [t]`, `STAILQ_REMOVE_HEAD` drops the head.
-/

namespace AccelDsa

/-- errno value EBUSY (transient scarcity; the driver returns `-EBUSY`). -/
def EBUSY : Int := 16

/-- errno value EINVAL (invalid argument). -/
def EINVAL : Int := 22

/-- errno value EIO_errno (generic I/O failure). -/
def EIO_errno : Int := 5

/-- `enum channel_state` from accel_dsa.c (lines 28-31). -/
inductive channel_state where
  | IDXD_CHANNEL_ACTIVE
  | IDXD_CHANNEL_ERROR
deriving DecidableEq

/-- `struct iovec`: one memory region (base address, length). -/
structure iovec where
  iov_base : Nat
  iov_len : Nat
deriving DecidableEq

/-- `enum spdk_accel_opcode`, restricted to the opcodes this module names;
`SPDK_ACCEL_OPC_OTHER n` stands for any of the remaining enum members
(the module treats all of them uniformly in its `default:` branches). -/
inductive spdk_accel_opcode where
  | SPDK_ACCEL_OPC_COPY
  | SPDK_ACCEL_OPC_DUALCAST
  | SPDK_ACCEL_OPC_COMPARE
  | SPDK_ACCEL_OPC_FILL
  | SPDK_ACCEL_OPC_CRC32C
  | SPDK_ACCEL_OPC_COPY_CRC32C
  | SPDK_ACCEL_OPC_DIF_VERIFY
  | SPDK_ACCEL_OPC_DIF_GENERATE_COPY
  | SPDK_ACCEL_OPC_OTHER (n : Nat)
deriving DecidableEq

/-- `struct spdk_accel_task`: the fields accel_dsa.c reads.  Buffer
descriptors (`s`, `s2`, `d`, `d2`) are lists of regions; the C `iovcnt`
is the list length.  `crc_dst` and `dif_ctx` are opaque addresses. -/
structure spdk_accel_task where
  op_code : spdk_accel_opcode
  s : List iovec
  s2 : List iovec
  d : List iovec
  d2 : List iovec
  fill_pattern : Nat
  seed : Nat
  crc_dst : Nat
  dif_num_blocks : Nat
  dif_ctx : Nat
deriving DecidableEq

/-- `struct spdk_dif_error`: the error record the software DIF verify fills
in (failure type and byte offset; lines 127-129 print these two fields). -/
structure dif_err_rec where
  err_type : Nat
  err_offset : Nat
deriving DecidableEq

/-- `struct idxd_io_channel`: the state accel_dsa.c mutates per channel.
The driver channel handle and poller are opaque and omitted. -/
structure idxd_io_channel where
  state : channel_state
  num_outstanding : Nat
  queued_tasks : List spdk_accel_task
deriving DecidableEq

/-- Externally visible actions of the module, recorded in program order:
a driver submission call (`spdk_idxd_submit_*`), a caller completion
(`spdk_accel_task_complete`), or a software DIF verify (`spdk_dif_verify`)
together with its return code and the error record it filled. -/
inductive Effect where
  | driver_call (t : spdk_accel_task)
  | task_complete (t : spdk_accel_task) (status : Int)
  | sw_dif_verify (t : spdk_accel_task) (rc : Int) (err : dif_err_rec)
deriving DecidableEq

/-- The external idxd driver: for each task, the return code its
`spdk_idxd_submit_*` call yields (0 accepted, -EBUSY scarce, other error). -/
def DriverOracle : Type := spdk_accel_task → Int

/-- The external software DIF verify (`spdk_dif_verify`): its return code
and the error record it writes through `task->dif.err`. -/
def DifVerifyOracle : Type := spdk_accel_task → Int × dif_err_rec

/-- `idxd_submit_dualcast` (lines 141-158): structural validation of the
dual-cast task shape, then the driver submission call. -/
def idxd_submit_dualcast (driver : DriverOracle) (task : spdk_accel_task) :
    Int × List Effect :=
  match task.d, task.d2, task.s with
  | [dv], [d2v], [sv] =>
    if dv.iov_len ≠ sv.iov_len ∨ dv.iov_len ≠ d2v.iov_len then (-EINVAL, [])
    else (driver task, [Effect.driver_call task])
  | _, _, _ => (-EINVAL, [])

/-- The `switch (task->op_code)` of `_process_single_task` (lines 170-214):
maps the opcode to the driver submission call; the `default:` branch
(`assert(false); rc = -EINVAL;`) rejects unknown opcodes without a
driver call. -/
def _process_single_task_switch (driver : DriverOracle) (task : spdk_accel_task) :
    Int × List Effect :=
  match task.op_code with
  | .SPDK_ACCEL_OPC_COPY => (driver task, [Effect.driver_call task])
  | .SPDK_ACCEL_OPC_DUALCAST => idxd_submit_dualcast driver task
  | .SPDK_ACCEL_OPC_COMPARE => (driver task, [Effect.driver_call task])
  | .SPDK_ACCEL_OPC_FILL => (driver task, [Effect.driver_call task])
  | .SPDK_ACCEL_OPC_CRC32C => (driver task, [Effect.driver_call task])
  | .SPDK_ACCEL_OPC_COPY_CRC32C => (driver task, [Effect.driver_call task])
  | .SPDK_ACCEL_OPC_DIF_VERIFY => (driver task, [Effect.driver_call task])
  | .SPDK_ACCEL_OPC_DIF_GENERATE_COPY => (driver task, [Effect.driver_call task])
  | .SPDK_ACCEL_OPC_OTHER _ => (-EINVAL, [])

/-- The dispatch return code for a task: the `rc` `_process_single_task`
computes in its switch. -/
def dispatch_rc (driver : DriverOracle) (task : spdk_accel_task) : Int :=
  (_process_single_task_switch driver task).1

/-- `_process_single_task` (lines 160-222): run the dispatch switch and, on
success (`rc == 0`), increment the channel's outstanding counter
(lines 216-219). -/
def _process_single_task (driver : DriverOracle) (chan : idxd_io_channel)
    (task : spdk_accel_task) : Int × idxd_io_channel × List Effect :=
  let p := _process_single_task_switch driver task
  (p.1,
   if p.1 = 0 then { chan with num_outstanding := chan.num_outstanding + 1 } else chan,
   p.2)

/-- `dsa_submit_task` (lines 224-250): the module's task-submission entry
point.  Returns the C function's return value, the new channel state and
the effect trace. -/
def dsa_submit_task (driver : DriverOracle) (chan : idxd_io_channel)
    (task : spdk_accel_task) : Int × idxd_io_channel × List Effect :=
  if chan.state = .IDXD_CHANNEL_ERROR then
    (0, chan, [Effect.task_complete task (-EINVAL)])
  else if chan.queued_tasks ≠ [] then
    (0, { chan with queued_tasks := chan.queued_tasks ++ [task] }, [])
  else
    let p := _process_single_task driver chan task
    if p.1 = -EBUSY then
      (0, { p.2.1 with queued_tasks := p.2.1.queued_tasks ++ [task] }, p.2.2)
    else if p.1 ≠ 0 then
      (0, p.2.1, p.2.2 ++ [Effect.task_complete task p.1])
    else
      (0, p.2.1, p.2.2)

/-- The `STAILQ_FOREACH_SAFE` loop of `dsa_submit_queued_tasks`
(lines 268-277), walking the FIFO from head: on `-EBUSY` return at once
leaving the current entry and the rest queued; otherwise remove the head
and, if `rc` is a non-zero error, complete the task with it. -/
def dsa_drain_go (driver : DriverOracle) (chan : idxd_io_channel) :
    List spdk_accel_task → Int × idxd_io_channel × List Effect
  | [] => (0, { chan with queued_tasks := [] }, [])
  | t :: rest =>
    let p := _process_single_task driver chan t
    if p.1 = -EBUSY then
      (p.1, { p.2.1 with queued_tasks := t :: rest }, p.2.2)
    else
      let q := dsa_drain_go driver p.2.1 rest
      (q.1, q.2.1,
       p.2.2 ++ (if p.1 = 0 then [] else [Effect.task_complete t p.1]) ++ q.2.2)

/-- `dsa_submit_queued_tasks` (lines 252-280): in ERROR state, pop and
complete every queued task with `-EINVAL` (lines 259-266); otherwise run
the drain loop over the FIFO. -/
def dsa_submit_queued_tasks (driver : DriverOracle) (chan : idxd_io_channel) :
    Int × idxd_io_channel × List Effect :=
  if chan.state = .IDXD_CHANNEL_ERROR then
    (0, { chan with queued_tasks := [] },
     chan.queued_tasks.map (fun t => Effect.task_complete t (-EINVAL)))
  else
    dsa_drain_go driver chan chan.queued_tasks

/-- `dsa_done` (lines 108-139): the completion handler the driver invokes.
If the hardware status is `-EIO_errno` and the opcode is DIF verify, the software
DIF verify runs over the task's buffers/parameters first (lines 121-132);
then the outstanding counter is decremented (lines 134-136) and the caller's
continuation is invoked with the reported status (line 138).  The
`assert(chan->num_outstanding > 0)` is modelled separately by
`stepOutstanding`. -/
def dsa_done (sw_verify : DifVerifyOracle) (chan : idxd_io_channel)
    (task : spdk_accel_task) (status : Int) : idxd_io_channel × List Effect :=
  let pre :=
    if status = -EIO_errno then
      if task.op_code = .SPDK_ACCEL_OPC_DIF_VERIFY then
        [Effect.sw_dif_verify task (sw_verify task).1 (sw_verify task).2]
      else []
    else []
  ({ chan with num_outstanding := chan.num_outstanding - 1 },
   pre ++ [Effect.task_complete task status])

/-- The caller completions contained in an effect trace, in order. -/
def completions : List Effect → List (spdk_accel_task × Int)
  | [] => []
  | .task_complete t s :: es => (t, s) :: completions es
  | .driver_call _ :: es => completions es
  | .sw_dif_verify _ _ _ :: es => completions es

/-- Specification predicate, from the spec's dual-cast validation rule:
exactly one source region, one primary destination region, one secondary
destination region, and all three regions of the same length. -/
def dualcast_shape_ok (task : spdk_accel_task) : Prop :=
  task.s.length = 1 ∧ task.d.length = 1 ∧ task.d2.length = 1 ∧
  ∀ sv ∈ task.s, ∀ dv ∈ task.d, ∀ d2v ∈ task.d2,
    sv.iov_len = dv.iov_len ∧ sv.iov_len = d2v.iov_len

instance (task : spdk_accel_task) : Decidable (dualcast_shape_ok task) := by
  unfold dualcast_shape_ok; infer_instance

/-- `struct idxd_device` as the selector sees it: the device's locality
domain (`spdk_idxd_get_socket`) and whether `spdk_idxd_get_channel` would
currently grant a channel slot (non-NULL return). -/
structure idxd_device where
  socket_id : Nat
  has_channel : Bool
deriving DecidableEq

/-- The `do { ... } while (++count < g_num_devices)` loop of
`idxd_select_device` (lines 72-97).  `devs` is the registry's device list in
`TAILQ` order, `cursor` the index of `g_next_dev`, `fuel` the remaining
iteration budget.  Each iteration first advances the cursor
(`TAILQ_NEXT`, wrapping to `TAILQ_FIRST`), skips an off-domain device
(`continue`), and otherwise tries the device's channel slot.  Returns the
index of the selected device (or none) together with the number of loop
iterations executed. -/
def idxd_select_device_loop (devs : List idxd_device) (socket_id : Nat) :
    Nat → Nat → Option Nat × Nat
  | _, 0 => (none, 0)
  | cursor, fuel + 1 =>
    let c := if cursor + 1 < devs.length then cursor + 1 else 0
    match devs[c]? with
    | none => (none, 1)
    | some dev =>
      if dev.socket_id ≠ socket_id then
        let r := idxd_select_device_loop devs socket_id c fuel
        (r.1, r.2 + 1)
      else if dev.has_channel then (some c, 1)
      else
        let r := idxd_select_device_loop devs socket_id c fuel
        (r.1, r.2 + 1)

/-- `idxd_select_device` (lines 60-106): run the scan loop with a budget of
`g_num_devices` (= `devs.length`) iterations, as enforced by
`while (++count < g_num_devices)` after the first mandatory iteration. -/
def idxd_select_device (devs : List idxd_device) (socket_id : Nat)
    (cursor : Nat) : Option Nat × Nat :=
  idxd_select_device_loop devs socket_id cursor devs.length

/-- `dsa_supports_opcode` (lines 304-327), with the globals
`g_dsa_initialized` and the result of `spdk_iommu_is_enabled()` passed
explicitly. -/
def dsa_supports_opcode (g_dsa_initialized : Bool) (iommu_enabled : Bool)
    (opc : spdk_accel_opcode) : Bool :=
  if !g_dsa_initialized then false
  else
    match opc with
    | .SPDK_ACCEL_OPC_COPY => true
    | .SPDK_ACCEL_OPC_FILL => true
    | .SPDK_ACCEL_OPC_DUALCAST => true
    | .SPDK_ACCEL_OPC_COMPARE => true
    | .SPDK_ACCEL_OPC_CRC32C => true
    | .SPDK_ACCEL_OPC_COPY_CRC32C => true
    | .SPDK_ACCEL_OPC_DIF_VERIFY => iommu_enabled
    | .SPDK_ACCEL_OPC_DIF_GENERATE_COPY => iommu_enabled
    | .SPDK_ACCEL_OPC_OTHER _ => false

/-- One event observed by a channel's outstanding counter: a successful
hardware acceptance or an observed completion. -/
inductive DsaEvent where
  | hw_accept
  | hw_complete
deriving DecidableEq

/-- Step of the outstanding counter: `hw_accept` embeds
`chan->num_outstanding++` on a successful dispatch (line 217);
`hw_complete` embeds `dsa_done`'s `assert(chan->num_outstanding > 0)`
followed by the decrement (lines 134-136).  `none` means the assertion
fired (counter underflow). -/
def stepOutstanding (n : Nat) : DsaEvent → Option Nat
  | .hw_accept => some (n + 1)
  | .hw_complete => if 0 < n then some (n - 1) else none

/-- Run the outstanding counter over a sequence of events, failing if any
completion finds the counter at zero. -/
def runOutstanding : Nat → List DsaEvent → Option Nat
  | n, [] => some n
  | n, e :: es =>
    match stepOutstanding n e with
    | some m => runOutstanding m es
    | none => none

/-- Number of hardware acceptances in an event sequence. -/
def countAccepts : List DsaEvent → Nat
  | [] => 0
  | .hw_accept :: es => countAccepts es + 1
  | .hw_complete :: es => countAccepts es

/-- Number of observed completions in an event sequence. -/
def countCompletes : List DsaEvent → Nat
  | [] => 0
  | .hw_accept :: es => countCompletes es
  | .hw_complete :: es => countCompletes es + 1

/-- Specification predicate, written from the spec's drain contract: there
is a processed prefix of length `k` such that every entry of that prefix
got a non-scarce dispatch attempt; the walk stopped either at the end of
the FIFO or at the first scarce entry, which stays at the head of the
remaining FIFO; the FIFO ends as the unprocessed suffix; the outstanding
counter grew by the number of successful dispatches in the prefix; the
channel health state is unchanged; and exactly the prefix entries whose
dispatch returned a non-zero, non-scarce code were completed, each with
its own dispatch error, in FIFO order. -/
def drain_walk_spec (driver : DriverOracle) (chan : idxd_io_channel)
    (r : Int × idxd_io_channel × List Effect) : Prop :=
  ∃ k, k ≤ chan.queued_tasks.length ∧
    (∀ t ∈ chan.queued_tasks.take k, dispatch_rc driver t ≠ -EBUSY) ∧
    (chan.queued_tasks.drop k = [] → r.1 = 0) ∧
    (∀ hd rem, chan.queued_tasks.drop k = hd :: rem →
      dispatch_rc driver hd = -EBUSY ∧ r.1 = -EBUSY) ∧
    r.2.1.queued_tasks = chan.queued_tasks.drop k ∧
    r.2.1.num_outstanding = chan.num_outstanding +
      ((chan.queued_tasks.take k).filter
        (fun t => decide (dispatch_rc driver t = 0))).length ∧
    r.2.1.state = chan.state ∧
    completions r.2.2 = (chan.queued_tasks.take k).filterMap
      (fun t => if dispatch_rc driver t = 0 then none
                else some (t, dispatch_rc driver t))

/-- Concrete fill task with a given seed, used as a distinguishable test
input for the oracles in witness statements. -/
def mkTask (n : Nat) : spdk_accel_task :=
  { op_code := .SPDK_ACCEL_OPC_FILL, s := [], s2 := [], d := [⟨0, 8⟩],
    d2 := [], fill_pattern := 0, seed := n, crc_dst := 0,
    dif_num_blocks := 0, dif_ctx := 0 }

/-- Concrete driver oracle: accepts seed-1 tasks, reports scarcity for
everything else. -/
def driverW : DriverOracle :=
  fun t => if t.seed = 1 then 0 else -EBUSY

/-- Concrete driver oracle that accepts every submission. -/
def driver0 : DriverOracle := fun _ => 0

/-- Concrete ACTIVE channel with a three-task FIFO. -/
def chanW : idxd_io_channel :=
  { state := .IDXD_CHANNEL_ACTIVE, num_outstanding := 0,
    queued_tasks := [mkTask 1, mkTask 2, mkTask 3] }

/-- Concrete ACTIVE channel with an empty FIFO. -/
def emptyChan : idxd_io_channel :=
  { state := .IDXD_CHANNEL_ACTIVE, num_outstanding := 0, queued_tasks := [] }

/-- Concrete channel in the ERROR state with one queued task. -/
def errChan : idxd_io_channel :=
  { state := .IDXD_CHANNEL_ERROR, num_outstanding := 0,
    queued_tasks := [mkTask 1] }

/-- Concrete dual-cast task with two regions in the source descriptor
(structurally invalid). -/
def badDualcast : spdk_accel_task :=
  { op_code := .SPDK_ACCEL_OPC_DUALCAST, s := [⟨0, 8⟩, ⟨8, 8⟩], s2 := [],
    d := [⟨16, 8⟩], d2 := [⟨24, 8⟩], fill_pattern := 0, seed := 0,
    crc_dst := 0, dif_num_blocks := 0, dif_ctx := 0 }

/-- Concrete DIF-verify task. -/
def difTask : spdk_accel_task :=
  { op_code := .SPDK_ACCEL_OPC_DIF_VERIFY, s := [⟨0, 4096⟩], s2 := [],
    d := [], d2 := [], fill_pattern := 0, seed := 0, crc_dst := 0,
    dif_num_blocks := 8, dif_ctx := 0 }

/-- Concrete software DIF verify oracle reporting a guard failure at
byte offset 16. -/
def swVerifyW : DifVerifyOracle := fun _ => (-EIO_errno, ⟨1, 16⟩)

/-! ## Theorems -/

/-- C9: the module's task-submission entry point `dsa_submit_task` returns
0 to the framework for every task, every driver outcome and every channel
state; ERROR-state rejection, validation failures and non-scarcity driver
errors are reported only through the task's completion continuation. -/
theorem dsa_submit_task_returns_zero (driver : DriverOracle)
    (chan : idxd_io_channel) (task : spdk_accel_task) :
    (dsa_submit_task driver chan task).1 = 0 := by
  simp only [dsa_submit_task]
  split
  · rfl
  split
  · rfl
  split
  · rfl
  split <;> rfl

/-- C2: for a channel in the ERROR state, `dsa_submit_task` completes the
submitted task immediately with `-EINVAL` and leaves the channel unchanged,
`dsa_submit_queued_tasks` completes every queued task with `-EINVAL` and
empties the FIFO, and neither path makes any driver submission call. -/
theorem dsa_error_state_rejects (driver : DriverOracle)
    (chan : idxd_io_channel) (task : spdk_accel_task)
    (h : chan.state = .IDXD_CHANNEL_ERROR) :
    dsa_submit_task driver chan task =
      (0, chan, [Effect.task_complete task (-EINVAL)]) ∧
    dsa_submit_queued_tasks driver chan =
      (0, { chan with queued_tasks := [] },
       chan.queued_tasks.map (fun t => Effect.task_complete t (-EINVAL))) ∧
    (∀ t, Effect.driver_call t ∉ (dsa_submit_task driver chan task).2.2) ∧
    (∀ t, Effect.driver_call t ∉ (dsa_submit_queued_tasks driver chan).2.2) := by
  unfold dsa_submit_task dsa_submit_queued_tasks
  simp [h]

/-- Witness for C2 on a concrete ERROR channel. -/
theorem dsa_error_state_rejects_witness :
    errChan.state = .IDXD_CHANNEL_ERROR ∧
    dsa_submit_task driver0 errChan (mkTask 2) =
      (0, errChan, [Effect.task_complete (mkTask 2) (-EINVAL)]) := by
  refine ⟨rfl, ?_⟩
  exact (dsa_error_state_rejects driver0 errChan (mkTask 2) rfl).1

/-- C6: a dual-cast task whose source, destination or secondary-destination
descriptor does not consist of exactly one region, or whose three regions
do not all have the same length, is rejected by `idxd_submit_dualcast`
with `-EINVAL` and no driver submission call is made. -/
theorem idxd_submit_dualcast_rejects_bad_shape (driver : DriverOracle)
    (task : spdk_accel_task) (h : ¬ dualcast_shape_ok task) :
    idxd_submit_dualcast driver task = (-EINVAL, []) := by
  unfold idxd_submit_dualcast
  split
  · rename_i dv d2v sv hd hd2 hs
    split
    · rfl
    · exfalso
      apply h
      refine ⟨by simp [hs], by simp [hd], by simp [hd2], ?_⟩
      intro sv' hsv' dv' hdv' d2v' hd2v'
      simp [hs] at hsv'
      simp [hd] at hdv'
      simp [hd2] at hd2v'
      subst hsv' hdv' hd2v'
      rename_i hlen
      push_neg at hlen
      omega
  · rfl

/-- Witness for C6 on a concrete malformed dual-cast task. -/
theorem idxd_submit_dualcast_rejects_bad_shape_witness :
    ¬ dualcast_shape_ok badDualcast ∧
    idxd_submit_dualcast driver0 badDualcast = (-EINVAL, []) :=
  ⟨by decide, idxd_submit_dualcast_rejects_bad_shape driver0 badDualcast (by decide)⟩

/-- C7: with the module initialized, the capability query reports copy,
fill, dual-cast, compare, crc32c and copy-crc32c as supported regardless
of the IOMMU state, reports DIF verify and DIF generate-with-copy as
supported exactly when the IOMMU is enabled, and reports every other
opcode as unsupported. -/
theorem dsa_supports_opcode_spec (iommu : Bool) :
    (∀ opc : spdk_accel_opcode,
      (opc = .SPDK_ACCEL_OPC_COPY ∨ opc = .SPDK_ACCEL_OPC_FILL ∨
       opc = .SPDK_ACCEL_OPC_DUALCAST ∨ opc = .SPDK_ACCEL_OPC_COMPARE ∨
       opc = .SPDK_ACCEL_OPC_CRC32C ∨ opc = .SPDK_ACCEL_OPC_COPY_CRC32C) →
      dsa_supports_opcode true iommu opc = true) ∧
    dsa_supports_opcode true iommu .SPDK_ACCEL_OPC_DIF_VERIFY = iommu ∧
    dsa_supports_opcode true iommu .SPDK_ACCEL_OPC_DIF_GENERATE_COPY = iommu ∧
    (∀ n, dsa_supports_opcode true iommu (.SPDK_ACCEL_OPC_OTHER n) = false) := by
  refine ⟨?_, rfl, rfl, fun n => rfl⟩
  rintro opc (rfl | rfl | rfl | rfl | rfl | rfl) <;> rfl

/-- Witness for C7 at a concrete opcode with the IOMMU disabled. -/
theorem dsa_supports_opcode_spec_witness :
    ((mkTask 0).op_code = .SPDK_ACCEL_OPC_COPY ∨
     (mkTask 0).op_code = .SPDK_ACCEL_OPC_FILL ∨
     (mkTask 0).op_code = .SPDK_ACCEL_OPC_DUALCAST ∨
     (mkTask 0).op_code = .SPDK_ACCEL_OPC_COMPARE ∨
     (mkTask 0).op_code = .SPDK_ACCEL_OPC_CRC32C ∨
     (mkTask 0).op_code = .SPDK_ACCEL_OPC_COPY_CRC32C) ∧
    dsa_supports_opcode true false (mkTask 0).op_code = true := by
  refine ⟨Or.inr (Or.inl rfl), ?_⟩
  exact (dsa_supports_opcode_spec false).1 (mkTask 0).op_code (Or.inr (Or.inl rfl))

/-- C8: on a completion whose hardware status is `-EIO_errno` for a DIF-verify
task, `dsa_done` runs the software DIF verify (producing the error record
with its failure type and byte offset) before invoking the caller's
continuation with the final status; for every other status/opcode
combination the continuation is invoked directly with the reported
status. -/
theorem dsa_done_dif_sw_check (sw_verify : DifVerifyOracle)
    (chan : idxd_io_channel) (task : spdk_accel_task) (status : Int) :
    (status = -EIO_errno → task.op_code = .SPDK_ACCEL_OPC_DIF_VERIFY →
      (dsa_done sw_verify chan task status).2 =
        [Effect.sw_dif_verify task (sw_verify task).1 (sw_verify task).2,
         Effect.task_complete task status]) ∧
    (¬(status = -EIO_errno ∧ task.op_code = .SPDK_ACCEL_OPC_DIF_VERIFY) →
      (dsa_done sw_verify chan task status).2 =
        [Effect.task_complete task status]) := by
  constructor
  · intro h1 h2
    simp [dsa_done, h1, h2]
  · intro h
    unfold dsa_done
    by_cases h1 : status = -EIO_errno
    · have h2 : task.op_code ≠ .SPDK_ACCEL_OPC_DIF_VERIFY := by
        intro h2; exact h ⟨h1, h2⟩
      simp [h1, h2]
    · simp [h1]

/-- Witness for C8 on a concrete DIF-verify task failing with `-EIO_errno`. -/
theorem dsa_done_dif_sw_check_witness :
    ((-EIO_errno : Int) = -EIO_errno ∧ difTask.op_code = .SPDK_ACCEL_OPC_DIF_VERIFY) ∧
    (dsa_done swVerifyW emptyChan difTask (-EIO_errno)).2 =
      [Effect.sw_dif_verify difTask (swVerifyW difTask).1 (swVerifyW difTask).2,
       Effect.task_complete difTask (-EIO_errno)] :=
  ⟨⟨rfl, rfl⟩, (dsa_done_dif_sw_check swVerifyW emptyChan difTask (-EIO_errno)).1 rfl rfl⟩

/-- C10: the status `dsa_done` hands to the caller's continuation is
exactly the hardware-reported status — the trace contains precisely one
caller completion, carrying the reported status, whatever the software
DIF check returns. -/
theorem dsa_done_status_verbatim (sw_verify : DifVerifyOracle)
    (chan : idxd_io_channel) (task : spdk_accel_task) (status : Int) :
    Effect.task_complete task status ∈ (dsa_done sw_verify chan task status).2 ∧
    (∀ t s, Effect.task_complete t s ∈ (dsa_done sw_verify chan task status).2 →
      t = task ∧ s = status) := by
  constructor
  · simp [dsa_done]
  · intro t s hmem
    by_cases h1 : status = -EIO_errno
    · subst h1
      by_cases h2 : task.op_code = .SPDK_ACCEL_OPC_DIF_VERIFY
      · simp [dsa_done, h2] at hmem
        exact ⟨hmem.1, hmem.2⟩
      · simp [dsa_done, h2] at hmem
        exact ⟨hmem.1, hmem.2⟩
    · simp [dsa_done, h1] at hmem
      exact ⟨hmem.1, hmem.2⟩

/-- Witness for C10 on a concrete completion with a software check that
itself reports a different error. -/
theorem dsa_done_status_verbatim_witness :
    Effect.task_complete difTask (-EIO_errno) ∈
      (dsa_done swVerifyW emptyChan difTask (-EIO_errno)).2 ∧
    (Effect.task_complete difTask (-EIO_errno) ∈
        (dsa_done swVerifyW emptyChan difTask (-EIO_errno)).2 →
      difTask = difTask ∧ (-EIO_errno : Int) = -EIO_errno) :=
  ⟨(dsa_done_status_verbatim swVerifyW emptyChan difTask (-EIO_errno)).1,
   fun hm => (dsa_done_status_verbatim swVerifyW emptyChan difTask (-EIO_errno)).2
     difTask (-EIO_errno) hm⟩

/-- Generalized accounting lemma for the outstanding counter: starting from
`k`, any event sequence whose prefixes never complete more than `k` plus
the acceptances seen so far runs without tripping the
`assert(chan->num_outstanding > 0)` and ends at
`k + acceptances − completions`. -/
theorem runOutstanding_accounting (es : List DsaEvent) : ∀ k : Nat,
    (∀ n, n ≤ es.length →
      countCompletes (es.take n) ≤ k + countAccepts (es.take n)) →
    runOutstanding k es = some (k + countAccepts es - countCompletes es) := by
  induction es with
  | nil =>
    intro k _
    simp [runOutstanding, countAccepts, countCompletes]
  | cons e es ih =>
    intro k h
    cases e with
    | hw_accept =>
      have h' : ∀ n, n ≤ es.length →
          countCompletes (es.take n) ≤ (k + 1) + countAccepts (es.take n) := by
        intro n hn
        have := h (n + 1) (by simpa using Nat.succ_le_succ hn)
        simp [List.take_succ_cons, countAccepts, countCompletes] at this
        omega
      have heq := ih (k + 1) h'
      have harith : k + 1 + countAccepts es - countCompletes es =
          k + countAccepts (DsaEvent.hw_accept :: es) -
            countCompletes (DsaEvent.hw_accept :: es) := by
        simp [countAccepts, countCompletes]
        omega
      simpa [runOutstanding, stepOutstanding, harith] using heq
    | hw_complete =>
      have hk : 1 ≤ k := by
        have := h 1 (by simp)
        simpa [countAccepts, countCompletes] using this
      have h' : ∀ n, n ≤ es.length →
          countCompletes (es.take n) ≤ (k - 1) + countAccepts (es.take n) := by
        intro n hn
        have := h (n + 1) (by simpa using Nat.succ_le_succ hn)
        simp [List.take_succ_cons, countAccepts, countCompletes] at this
        omega
      have heq := ih (k - 1) h'
      have hfull := h (es.length + 1) (by simp)
      simp [List.take_succ_cons, countAccepts, countCompletes,
        List.take_of_length_le (Nat.le_refl es.length)] at hfull
      have harith : k - 1 + countAccepts es - countCompletes es =
          k + countAccepts (DsaEvent.hw_complete :: es) -
            countCompletes (DsaEvent.hw_complete :: es) := by
        simp [countAccepts, countCompletes]
        omega
      simpa [runOutstanding, stepOutstanding, hk, Nat.lt_of_lt_of_le Nat.zero_lt_one hk,
        harith] using heq

/-- C4: over any interleaving of successful hardware acceptances and
observed completions in which completions never outrun acceptances, the
channel's outstanding counter equals acceptances minus completions at the
end, and every completion finds the counter strictly positive before
decrementing (the run never returns `none`). -/
theorem outstanding_count_invariant (es : List DsaEvent)
    (h : ∀ n, n ≤ es.length →
      countCompletes (es.take n) ≤ countAccepts (es.take n)) :
    runOutstanding 0 es = some (countAccepts es - countCompletes es) := by
  have := runOutstanding_accounting es 0 (by simpa using h)
  simpa using this

/-- Witness for C4 on the concrete event sequence accept, accept,
complete, complete. -/
theorem outstanding_count_invariant_witness :
    (∀ n, n ≤ ([DsaEvent.hw_accept, DsaEvent.hw_accept, DsaEvent.hw_complete,
        DsaEvent.hw_complete] : List DsaEvent).length →
      countCompletes (List.take n [DsaEvent.hw_accept, DsaEvent.hw_accept,
        DsaEvent.hw_complete, DsaEvent.hw_complete]) ≤
      countAccepts (List.take n [DsaEvent.hw_accept, DsaEvent.hw_accept,
        DsaEvent.hw_complete, DsaEvent.hw_complete])) ∧
    runOutstanding 0 [DsaEvent.hw_accept, DsaEvent.hw_accept,
      DsaEvent.hw_complete, DsaEvent.hw_complete] = some 0 :=
  ⟨by decide,
   outstanding_count_invariant
     [DsaEvent.hw_accept, DsaEvent.hw_accept, DsaEvent.hw_complete,
      DsaEvent.hw_complete] (by decide)⟩

/-- If the scan loop selects a device, that device is in the registry, is
on the requester's locality domain and granted a channel slot. -/
theorem idxd_select_loop_sound (devs : List idxd_device) (socket_id : Nat) :
    ∀ fuel cursor i,
    (idxd_select_device_loop devs socket_id cursor fuel).1 = some i →
    ∃ dev, devs[i]? = some dev ∧ dev ∈ devs ∧
      dev.socket_id = socket_id ∧ dev.has_channel = true := by
  intro fuel
  induction fuel with
  | zero =>
    intro cursor i h
    simp [idxd_select_device_loop] at h
  | succ fuel ih =>
    intro cursor i h
    simp only [idxd_select_device_loop] at h
    cases hdev : devs[if cursor + 1 < devs.length then cursor + 1 else 0]? with
    | none => rw [hdev] at h; simp at h
    | some dev =>
      rw [hdev] at h
      dsimp only at h
      by_cases hsock : dev.socket_id ≠ socket_id
      · rw [if_pos hsock] at h
        exact ih _ i h
      · rw [if_neg hsock] at h
        by_cases hch : dev.has_channel = true
        · rw [if_pos hch] at h
          simp at h
          subst h
          exact ⟨dev, hdev, List.getElem?_mem hdev, not_not.mp hsock, hch⟩
        · rw [if_neg hch] at h
          exact ih _ i h

/-- The scan loop executes at most `fuel` iterations. -/
theorem idxd_select_loop_steps (devs : List idxd_device) (socket_id : Nat) :
    ∀ fuel cursor,
    (idxd_select_device_loop devs socket_id cursor fuel).2 ≤ fuel := by
  intro fuel
  induction fuel with
  | zero =>
    intro cursor
    simp [idxd_select_device_loop]
  | succ fuel ih =>
    intro cursor
    simp only [idxd_select_device_loop]
    cases hdev : devs[if cursor + 1 < devs.length then cursor + 1 else 0]? with
    | none => simp
    | some dev =>
      dsimp only
      by_cases hsock : dev.socket_id ≠ socket_id
      · rw [if_pos hsock]
        have := ih (if cursor + 1 < devs.length then cursor + 1 else 0)
        simp
        omega
      · rw [if_neg hsock]
        by_cases hch : dev.has_channel = true
        · simp [hch]
        · rw [if_neg hch]
          have := ih (if cursor + 1 < devs.length then cursor + 1 else 0)
          simp
          omega

/-- If no registry device is both on-domain and able to grant a slot, the
scan loop never selects a device. -/
theorem idxd_select_loop_fail (devs : List idxd_device) (socket_id : Nat)
    (hnone : ∀ dev ∈ devs, ¬(dev.socket_id = socket_id ∧ dev.has_channel = true)) :
    ∀ fuel cursor,
    (idxd_select_device_loop devs socket_id cursor fuel).1 = none := by
  intro fuel
  induction fuel with
  | zero =>
    intro cursor
    simp [idxd_select_device_loop]
  | succ fuel ih =>
    intro cursor
    simp only [idxd_select_device_loop]
    cases hdev : devs[if cursor + 1 < devs.length then cursor + 1 else 0]? with
    | none => simp
    | some dev =>
      dsimp only
      by_cases hsock : dev.socket_id ≠ socket_id
      · rw [if_pos hsock]
        exact ih _
      · rw [if_neg hsock]
        by_cases hch : dev.has_channel = true
        · exact absurd ⟨not_not.mp hsock, hch⟩ (hnone dev (List.getElem?_mem hdev))
        · rw [if_neg hch]
          exact ih _

/-- C5: device selection never returns a device off the requester's
locality domain or without a granted channel slot; it performs at most
(total device count) scan iterations; and if no on-domain device grants a
slot it fails, returning no device. -/
theorem idxd_select_device_spec (devs : List idxd_device) (socket_id cursor : Nat) :
    (∀ i, (idxd_select_device devs socket_id cursor).1 = some i →
      ∃ dev, devs[i]? = some dev ∧ dev ∈ devs ∧
        dev.socket_id = socket_id ∧ dev.has_channel = true) ∧
    (idxd_select_device devs socket_id cursor).2 ≤ devs.length ∧
    ((∀ dev ∈ devs, ¬(dev.socket_id = socket_id ∧ dev.has_channel = true)) →
      (idxd_select_device devs socket_id cursor).1 = none) :=
  ⟨fun i h => idxd_select_loop_sound devs socket_id devs.length cursor i h,
   idxd_select_loop_steps devs socket_id devs.length cursor,
   fun hnone => idxd_select_loop_fail devs socket_id hnone devs.length cursor⟩

/-- Witness for C5 on a concrete registry whose only device is off the
requester's domain: selection fails within the iteration bound. -/
theorem idxd_select_device_spec_witness :
    (∀ dev ∈ ([⟨0, true⟩] : List idxd_device),
      ¬(dev.socket_id = 1 ∧ dev.has_channel = true)) ∧
    (idxd_select_device [⟨0, true⟩] 1 0).1 = none ∧
    (idxd_select_device [⟨0, true⟩] 1 0).2 ≤ 1 :=
  ⟨by decide,
   (idxd_select_device_spec [⟨0, true⟩] 1 0).2.2 (by decide),
   (idxd_select_device_spec [⟨0, true⟩] 1 0).2.1⟩

/-- `completions` distributes over trace concatenation. -/
theorem completions_append (xs ys : List Effect) :
    completions (xs ++ ys) = completions xs ++ completions ys := by
  induction xs with
  | nil => simp [completions]
  | cons e es ih => cases e <;> simp [completions, ih]

/-- The dispatch switch itself never completes a task: its trace holds at
most a driver submission call. -/
theorem completions_switch (driver : DriverOracle) (t : spdk_accel_task) :
    completions (_process_single_task_switch driver t).2 = [] := by
  unfold _process_single_task_switch
  cases t.op_code <;> try simp [completions]
  unfold idxd_submit_dualcast
  split
  · split <;> simp [completions]
  · simp [completions]

/-- Drain-loop step: a scarce head stops the walk with the whole FIFO kept. -/
theorem dsa_drain_go_cons_busy (driver : DriverOracle) (chan : idxd_io_channel)
    (t : spdk_accel_task) (rest : List spdk_accel_task)
    (hb : dispatch_rc driver t = -EBUSY) :
    dsa_drain_go driver chan (t :: rest) =
      (-EBUSY, { chan with queued_tasks := t :: rest },
       (_process_single_task_switch driver t).2) := by
  have hb' : (_process_single_task_switch driver t).1 = -EBUSY := hb
  have hne0 : ¬ (_process_single_task_switch driver t).1 = 0 := by rw [hb']; decide
  simp only [dsa_drain_go, _process_single_task]
  rw [if_pos hb', if_neg hne0, hb']

/-- Drain-loop step: an accepted head is removed, the outstanding counter
incremented, and the walk continues. -/
theorem dsa_drain_go_cons_ok (driver : DriverOracle) (chan : idxd_io_channel)
    (t : spdk_accel_task) (rest : List spdk_accel_task)
    (h0 : dispatch_rc driver t = 0) :
    dsa_drain_go driver chan (t :: rest) =
      ((dsa_drain_go driver
          { chan with num_outstanding := chan.num_outstanding + 1 } rest).1,
       (dsa_drain_go driver
          { chan with num_outstanding := chan.num_outstanding + 1 } rest).2.1,
       (_process_single_task_switch driver t).2 ++
         (dsa_drain_go driver
            { chan with num_outstanding := chan.num_outstanding + 1 } rest).2.2) := by
  have h0' : (_process_single_task_switch driver t).1 = 0 := h0
  have hnb : ¬ (_process_single_task_switch driver t).1 = -EBUSY := by rw [h0']; decide
  simp only [dsa_drain_go, _process_single_task]
  rw [if_neg hnb, if_pos h0', if_pos h0']
  simp

/-- Drain-loop step: a head rejected with a non-scarce error is removed,
completed with that error, and the walk continues. -/
theorem dsa_drain_go_cons_err (driver : DriverOracle) (chan : idxd_io_channel)
    (t : spdk_accel_task) (rest : List spdk_accel_task)
    (hnb : ¬ dispatch_rc driver t = -EBUSY) (hne0 : ¬ dispatch_rc driver t = 0) :
    dsa_drain_go driver chan (t :: rest) =
      ((dsa_drain_go driver chan rest).1,
       (dsa_drain_go driver chan rest).2.1,
       (_process_single_task_switch driver t).2 ++
         [Effect.task_complete t (dispatch_rc driver t)] ++
         (dsa_drain_go driver chan rest).2.2) := by
  have hnb' : ¬ (_process_single_task_switch driver t).1 = -EBUSY := hnb
  have hne0' : ¬ (_process_single_task_switch driver t).1 = 0 := hne0
  simp only [dsa_drain_go, _process_single_task]
  rw [if_neg hnb', if_neg hne0', if_neg hne0']
  rfl

/-- Characterization of the drain loop, by induction over the FIFO: it
stops at the first scarce entry (kept at the head of what remains),
removes and accounts every earlier entry, and completes exactly the
non-accepted earlier entries with their own dispatch errors. -/
theorem dsa_drain_go_char (driver : DriverOracle) :
    ∀ (queue : List spdk_accel_task) (chan : idxd_io_channel),
    ∃ k, k ≤ queue.length ∧
      (∀ t ∈ queue.take k, dispatch_rc driver t ≠ -EBUSY) ∧
      (queue.drop k = [] → (dsa_drain_go driver chan queue).1 = 0) ∧
      (∀ hd rem, queue.drop k = hd :: rem →
        dispatch_rc driver hd = -EBUSY ∧
        (dsa_drain_go driver chan queue).1 = -EBUSY) ∧
      (dsa_drain_go driver chan queue).2.1.queued_tasks = queue.drop k ∧
      (dsa_drain_go driver chan queue).2.1.num_outstanding =
        chan.num_outstanding +
          ((queue.take k).filter
            (fun t => decide (dispatch_rc driver t = 0))).length ∧
      (dsa_drain_go driver chan queue).2.1.state = chan.state ∧
      completions (dsa_drain_go driver chan queue).2.2 =
        (queue.take k).filterMap
          (fun t => if dispatch_rc driver t = 0 then none
                    else some (t, dispatch_rc driver t)) := by
  intro queue
  induction queue with
  | nil =>
    intro chan
    exact ⟨0, by simp [dsa_drain_go, completions]⟩
  | cons t rest ih =>
    intro chan
    by_cases hb : dispatch_rc driver t = -EBUSY
    · refine ⟨0, by simp, by simp, by simp, ?_, ?_, ?_, ?_, ?_⟩
      · intro hd rem heq
        rw [List.drop_zero] at heq
        cases heq
        rw [dsa_drain_go_cons_busy driver chan t rest hb]
        exact ⟨hb, rfl⟩
      · rw [dsa_drain_go_cons_busy driver chan t rest hb]
        simp
      · rw [dsa_drain_go_cons_busy driver chan t rest hb]
        simp
      · rw [dsa_drain_go_cons_busy driver chan t rest hb]
      · rw [dsa_drain_go_cons_busy driver chan t rest hb]
        simp [completions_switch]
    · by_cases h0 : dispatch_rc driver t = 0
      · obtain ⟨k, hklen, hA, hB, hC, hD, hE, hF, hG⟩ :=
          ih { chan with num_outstanding := chan.num_outstanding + 1 }
        refine ⟨k + 1, by simpa using hklen, ?_, ?_, ?_, ?_, ?_, ?_, ?_⟩
        · intro t' ht'
          rw [List.take_succ_cons] at ht'
          rcases List.mem_cons.mp ht' with rfl | ht'
          · exact hb
          · exact hA t' ht'
        · rw [List.drop_succ_cons]
          intro hdrop
          rw [dsa_drain_go_cons_ok driver chan t rest h0]
          exact hB hdrop
        · rw [List.drop_succ_cons]
          intro hd rem heq
          rw [dsa_drain_go_cons_ok driver chan t rest h0]
          exact hC hd rem heq
        · rw [List.drop_succ_cons, dsa_drain_go_cons_ok driver chan t rest h0]
          exact hD
        · rw [dsa_drain_go_cons_ok driver chan t rest h0, List.take_succ_cons]
          rw [hE]
          simp [h0]
          omega
        · rw [dsa_drain_go_cons_ok driver chan t rest h0]
          exact hF
        · rw [dsa_drain_go_cons_ok driver chan t rest h0, List.take_succ_cons]
          rw [completions_append, completions_switch, hG]
          simp [h0]
      · obtain ⟨k, hklen, hA, hB, hC, hD, hE, hF, hG⟩ := ih chan
        refine ⟨k + 1, by simpa using hklen, ?_, ?_, ?_, ?_, ?_, ?_, ?_⟩
        · intro t' ht'
          rw [List.take_succ_cons] at ht'
          rcases List.mem_cons.mp ht' with rfl | ht'
          · exact hb
          · exact hA t' ht'
        · rw [List.drop_succ_cons]
          intro hdrop
          rw [dsa_drain_go_cons_err driver chan t rest hb h0]
          exact hB hdrop
        · rw [List.drop_succ_cons]
          intro hd rem heq
          rw [dsa_drain_go_cons_err driver chan t rest hb h0]
          exact hC hd rem heq
        · rw [List.drop_succ_cons, dsa_drain_go_cons_err driver chan t rest hb h0]
          exact hD
        · rw [dsa_drain_go_cons_err driver chan t rest hb h0, List.take_succ_cons]
          rw [hE]
          simp [h0]
        · rw [dsa_drain_go_cons_err driver chan t rest hb h0]
          exact hF
        · rw [dsa_drain_go_cons_err driver chan t rest hb h0, List.take_succ_cons]
          rw [completions_append, completions_append, completions_switch, hG]
          simp [completions, h0]

/-- C1: for an ACTIVE channel with a non-empty FIFO, `dsa_submit_queued_tasks`
walks the FIFO from the head in arrival order: it stops immediately at the
first entry whose dispatch reports `-EBUSY`, leaving that entry and all
later ones queued and unaccounted; each earlier entry was removed, with the
outstanding counter incremented on success, or completed with its own
dispatch error (draining continuing) on any other error. -/
theorem dsa_drain_fifo_walk (driver : DriverOracle) (chan : idxd_io_channel)
    (h : chan.state = .IDXD_CHANNEL_ACTIVE) (hne : chan.queued_tasks ≠ []) :
    drain_walk_spec driver chan (dsa_submit_queued_tasks driver chan) := by
  have hstate : ¬ chan.state = .IDXD_CHANNEL_ERROR := by
    rw [h]; intro hc; cases hc
  unfold dsa_submit_queued_tasks
  rw [if_neg hstate]
  exact dsa_drain_go_char driver chan.queued_tasks chan

/-- Witness for C1: a three-task FIFO whose head is accepted and whose
second entry is scarce. -/
theorem dsa_drain_fifo_walk_witness :
    chanW.state = .IDXD_CHANNEL_ACTIVE ∧ chanW.queued_tasks ≠ [] ∧
    drain_walk_spec driverW chanW (dsa_submit_queued_tasks driverW chanW) :=
  ⟨rfl, by decide, dsa_drain_fifo_walk driverW chanW rfl (by decide)⟩

/-- C3: on an ACTIVE channel, `dsa_submit_task` appends to the FIFO tail
without attempting dispatch when the FIFO is non-empty; on an empty FIFO
it attempts immediate dispatch, queueing the task on `-EBUSY`, completing
it with the error (without enqueueing) on any other dispatch error, and
incrementing the outstanding counter on success. -/
theorem dsa_submit_task_active (driver : DriverOracle) (chan : idxd_io_channel)
    (task : spdk_accel_task) (h : chan.state = .IDXD_CHANNEL_ACTIVE) :
    (chan.queued_tasks ≠ [] →
      dsa_submit_task driver chan task =
        (0, { chan with queued_tasks := chan.queued_tasks ++ [task] }, [])) ∧
    (chan.queued_tasks = [] →
      (dispatch_rc driver task = -EBUSY →
        dsa_submit_task driver chan task =
          (0, { chan with queued_tasks := [task] },
           (_process_single_task_switch driver task).2)) ∧
      (dispatch_rc driver task ≠ -EBUSY → dispatch_rc driver task ≠ 0 →
        dsa_submit_task driver chan task =
          (0, chan,
           (_process_single_task_switch driver task).2 ++
             [Effect.task_complete task (dispatch_rc driver task)])) ∧
      (dispatch_rc driver task = 0 →
        dsa_submit_task driver chan task =
          (0, { chan with num_outstanding := chan.num_outstanding + 1 },
           (_process_single_task_switch driver task).2))) := by
  have hstate : ¬ chan.state = .IDXD_CHANNEL_ERROR := by
    rw [h]; intro hc; cases hc
  refine ⟨?_, ?_⟩
  · intro hne
    simp only [dsa_submit_task]
    rw [if_neg hstate, if_pos hne]
  · intro hq
    refine ⟨?_, ?_, ?_⟩
    · intro hbusy
      have hbusy' : (_process_single_task_switch driver task).1 = -EBUSY := hbusy
      have hne0 : ¬ (_process_single_task_switch driver task).1 = 0 := by
        rw [hbusy']; decide
      simp only [dsa_submit_task, _process_single_task]
      rw [if_neg hstate, if_neg (not_not_intro hq)]
      rw [if_pos hbusy', if_neg hne0, hq]
      simp
    · intro hnb hne0
      have hnb' : ¬ (_process_single_task_switch driver task).1 = -EBUSY := hnb
      have hne0' : ¬ (_process_single_task_switch driver task).1 = 0 := hne0
      simp only [dsa_submit_task, _process_single_task]
      rw [if_neg hstate, if_neg (not_not_intro hq)]
      rw [if_neg hnb', if_pos hne0', if_neg hne0']
      rfl
    · intro h0
      have h0' : (_process_single_task_switch driver task).1 = 0 := h0
      have hnb : ¬ (_process_single_task_switch driver task).1 = -EBUSY := by
        rw [h0']; decide
      simp only [dsa_submit_task, _process_single_task]
      rw [if_neg hstate, if_neg (not_not_intro hq)]
      rw [if_neg hnb, if_neg (not_not_intro h0'), if_pos h0']

/-- Witness for C3: submitting to an ACTIVE empty-FIFO channel whose
driver accepts the task increments the outstanding counter. -/
theorem dsa_submit_task_active_witness :
    emptyChan.state = .IDXD_CHANNEL_ACTIVE ∧ emptyChan.queued_tasks = [] ∧
    dispatch_rc driver0 (mkTask 1) = 0 ∧
    dsa_submit_task driver0 emptyChan (mkTask 1) =
      (0, { emptyChan with num_outstanding := emptyChan.num_outstanding + 1 },
       (_process_single_task_switch driver0 (mkTask 1)).2) :=
  ⟨rfl, rfl, rfl,
   ((dsa_submit_task_active driver0 emptyChan (mkTask 1) rfl).2 rfl).2.2 rfl⟩

end AccelDsa
